import Mathlib

/-!
Shallow embedding of the market-structure-shift backtesting engine
(`backtester.py`): account/position sizing, swing-point computation,
signal detection, the exit scan and the main cursor loop, together with
theorems about the invariants of the engine.

Prices are modelled as exact rationals; timestamps as natural numbers
counting minutes since an epoch (so time-of-day is `t % 1440`).
-/

set_option maxRecDepth 100000
set_option maxHeartbeats 4000000

attribute [local semireducible] Rat.add Rat.sub Rat.mul Rat.inv Rat.ofScientific

/-- One row of the indicator-augmented data frame handed to `run_backtest`:
raw OHLC-derived fields plus the precomputed `ema_fast`, `ema_slow`,
`swing_high`, `swing_low` columns. -/
structure Bar where
  timestamp : Nat
  high : ℚ
  low : ℚ
  close : ℚ
  ema_fast : ℚ
  ema_slow : ℚ
  swing_high : Bool
  swing_low : Bool
  deriving DecidableEq, Repr

inductive TradeType where
  | buy
  | sell
  deriving DecidableEq, Repr

inductive TradeResult where
  | win
  | loss
  deriving DecidableEq, Repr

inductive SetupType where
  | bullishMSS
  | bearishMSS
  deriving DecidableEq, Repr

/-- A detected MSS setup (the transient result of the signal-detection block):
direction, entry price (close of the decision bar), protective stop (last
swing extreme), the broken swing level, and the data-frame indices of the two
swing rows consulted (`lhIdx`: the broken counter-trend swing, `stopIdx`: the
swing supplying the stop). -/
structure Setup where
  trade_type : TradeType
  entry_price : ℚ
  stop_loss : ℚ
  setup_type : SetupType
  trigger_level : ℚ
  lhIdx : Nat
  stopIdx : Nat
  deriving DecidableEq, Repr

/-- One completed trade as passed to `TradeLogger.log_trade`. -/
structure TradeRecord where
  entry_time : Nat
  exit_time : Nat
  trade_type : TradeType
  entry_price : ℚ
  exit_price : ℚ
  stop_loss : ℚ
  take_profit : ℚ
  position_size : ℚ
  pnl_currency : ℚ
  account_balance : ℚ
  result : TradeResult
  setup_type : SetupType
  trigger_level : ℚ
  deriving DecidableEq, Repr

/-- Absolute value on ℚ, written out so that it evaluates by kernel
reduction (the `abs` builtin of Python). -/
def ratAbs (x : ℚ) : ℚ := if x < 0 then -x else x

/-- `Account.get_position_size`: risk a percentage of the balance over the
stop distance; returns 0 when the stop distance is zero. -/
def get_position_size (balance risk_percent entry_price sl_price : ℚ) : ℚ :=
  if ratAbs (entry_price - sl_price) = 0 then 0
  else balance * (risk_percent / 100) / ratAbs (entry_price - sl_price)

/-- The session filter: `london_open (08:00) ≤ time-of-day ≤ ny_close (22:00)`,
both ends inclusive, in UTC minutes-of-day. -/
def sessionOK (b : Bar) : Bool :=
  decide (480 ≤ b.timestamp % 1440) && decide (b.timestamp % 1440 ≤ 1320)

/-- Kernel-evaluable binary max / min on ℚ. -/
def qmax (a b : ℚ) : ℚ := if a ≤ b then b else a

def qmin (a b : ℚ) : ℚ := if a ≤ b then a else b

def listMaxFrom (a : ℚ) : List ℚ → ℚ
  | [] => a
  | x :: xs => listMaxFrom (qmax a x) xs

def listMax? : List ℚ → Option ℚ
  | [] => none
  | x :: xs => some (listMaxFrom x xs)

def listMinFrom (a : ℚ) : List ℚ → ℚ
  | [] => a
  | x :: xs => listMinFrom (qmin a x) xs

def listMin? : List ℚ → Option ℚ
  | [] => none
  | x :: xs => some (listMinFrom x xs)

/-- The centered rolling-window maximum used by `find_swing_points`:
defined only when the full window `[i-L, i+L]` fits inside the series. -/
def windowMax? (xs : List ℚ) (L i : Nat) : Option ℚ :=
  if L ≤ i ∧ i + L < xs.length then listMax? ((xs.drop (i - L)).take (2 * L + 1))
  else none

def windowMin? (xs : List ℚ) (L i : Nat) : Option ℚ :=
  if L ≤ i ∧ i + L < xs.length then listMin? ((xs.drop (i - L)).take (2 * L + 1))
  else none

/-- `swing_high` flag at index `i`: the high of the bar equals the maximum of the
centered window of width `2L+1` (boundary rows are unflagged, matching the
`rolling(center=True)` NaN behaviour filtered by `== 1`). -/
def swingHighFlag (highs : List ℚ) (L i : Nat) : Bool :=
  match windowMax? highs L i, highs.get? i with
  | some m, some h => decide (h = m)
  | _, _ => false

def swingLowFlag (lows : List ℚ) (L i : Nat) : Bool :=
  match windowMin? lows L i, lows.get? i with
  | some m, some l => decide (l = m)
  | _, _ => false

/-- `find_swing_points`: recompute the `swing_high` / `swing_low` columns of
the whole frame from the centered rolling windows (lookback 5 by default). -/
def find_swing_points (df : List Bar) (L : Nat := 5) : List Bar :=
  df.mapIdx (fun i b =>
    { b with
      swing_high := swingHighFlag (df.map (·.high)) L i
      swing_low := swingLowFlag (df.map (·.low)) L i })

/-- The signal-detection block of `run_backtest` at cursor `i` (lines 76-110):
classify the trend from the EMAs of the current bar, take the last
counter-trend swing before `i`, require a close beyond its level, and take
the stop from the last opposite swing before `i`. Returns `none` when no
complete setup is triggered. -/
def swingHighsOf (df : List Bar) : List (Nat × Bar) :=
  df.enum.filter (fun p => p.2.swing_high)

def swingLowsOf (df : List Bar) : List (Nat × Bar) :=
  df.enum.filter (fun p => p.2.swing_low)

def detectAt (df : List Bar) (i : Nat) : Option Setup :=
  match df.get? i with
  | none => none
  | some b =>
    if b.ema_fast > b.ema_slow then
      match (((swingHighsOf df).filter (fun p => decide (p.1 < i))).filter
          (fun p => decide (p.2.ema_fast < p.2.ema_slow))).getLast? with
      | none => none
      | some lh =>
        if b.close > lh.2.high then
          match ((swingLowsOf df).filter (fun p => decide (p.1 < i))).getLast? with
          | none => none
          | some rl =>
            some ⟨TradeType.buy, b.close, rl.2.low, SetupType.bullishMSS,
              lh.2.high, lh.1, rl.1⟩
        else none
    else
      match (((swingLowsOf df).filter (fun p => decide (p.1 < i))).filter
          (fun p => decide (p.2.ema_fast > p.2.ema_slow))).getLast? with
      | none => none
      | some hl =>
        if b.close < hl.2.low then
          match ((swingHighsOf df).filter (fun p => decide (p.1 < i))).getLast? with
          | none => none
          | some rh =>
            some ⟨TradeType.sell, b.close, rh.2.high, SetupType.bearishMSS,
              hl.2.low, hl.1, rh.1⟩
        else none

/-- `take_profit = entry ± sl_distance * 2`, sign per direction. -/
def takeProfit (s : Setup) : ℚ :=
  if s.trade_type = TradeType.buy then
    s.entry_price + ratAbs (s.entry_price - s.stop_loss) * 2
  else
    s.entry_price - ratAbs (s.entry_price - s.stop_loss) * 2

/-- The exit event found by the forward scan: bar index, the bar itself, the
outcome and the exit price fixed by the triggering branch. -/
structure ExitEv where
  j : Nat
  bar : Bar
  result : TradeResult
  exit_price : ℚ
  deriving DecidableEq, Repr

/-- The forward exit scan (`for j in range(i+1, len(df))`): at each future bar
the stop-loss test comes first, `elif` the take-profit test; the first bar
where either fires resolves the trade. `j0` is the index of the first bar in
`l`. -/
def scanExitAux (ty : TradeType) (sl tp : ℚ) : Nat → List Bar → Option ExitEv
  | _, [] => none
  | j, b :: rest =>
    match ty with
    | TradeType.buy =>
      if b.low ≤ sl then some ⟨j, b, TradeResult.loss, sl⟩
      else if b.high ≥ tp then some ⟨j, b, TradeResult.win, tp⟩
      else scanExitAux ty sl tp (j + 1) rest
    | TradeType.sell =>
      if b.high ≥ sl then some ⟨j, b, TradeResult.loss, sl⟩
      else if b.low ≤ tp then some ⟨j, b, TradeResult.win, tp⟩
      else scanExitAux ty sl tp (j + 1) rest

/-- Position size of the trade about to be opened (risk_percent is the
hard-coded 1). -/
def tradeSize (bal : ℚ) (s : Setup) : ℚ :=
  get_position_size bal 1 s.entry_price s.stop_loss

/-- Realized P&L: `(exit-entry)*size` for a buy, `(entry-exit)*size` for a
sell. -/
def tradePnl (bal : ℚ) (s : Setup) (ex : ExitEv) : ℚ :=
  if s.trade_type = TradeType.buy then
    (ex.exit_price - s.entry_price) * tradeSize bal s
  else
    (s.entry_price - ex.exit_price) * tradeSize bal s

/-- The `TradeRecord` handed to the logger when the exit fires (`account_balance`
is the post-update balance). -/
def mkRecord (bal : ℚ) (b : Bar) (s : Setup) (ex : ExitEv) : TradeRecord :=
  { entry_time := b.timestamp
    exit_time := ex.bar.timestamp
    trade_type := s.trade_type
    entry_price := s.entry_price
    exit_price := ex.exit_price
    stop_loss := s.stop_loss
    take_profit := takeProfit s
    position_size := tradeSize bal s
    pnl_currency := tradePnl bal s ex
    account_balance := bal + tradePnl bal s ex
    result := ex.result
    setup_type := s.setup_type
    trigger_level := s.trigger_level }

/-- Engine state threaded through the main `while` loop. -/
structure EngineState where
  i : Nat
  balance : ℚ
  trade_is_open : Bool
  records : List TradeRecord
  deriving DecidableEq, Repr

/-- Resolution of an accepted setup: update the balance, append the record,
set the cursor to the index `j` of the exit bar and return to flat. -/
def closeTrade (st : EngineState) (b : Bar) (s : Setup) (ex : ExitEv) : EngineState :=
  { i := ex.j
    balance := st.balance + tradePnl st.balance s ex
    trade_is_open := false
    records := st.records ++ [mkRecord st.balance b s ex] }

/-- One iteration of the main `while i < len(df)` loop of `run_backtest`:
skip while a trade is open, apply the session filter, run signal detection,
reject degenerate stop distances and non-positive sizes, otherwise open the
position and scan forward for its exit; with no exit, the cursor jumps to the
series end with the position still open. -/
def step (df : List Bar) (st : EngineState) : EngineState :=
  if st.trade_is_open then { st with i := st.i + 1 } else
    match df.get? st.i with
    | none => { st with i := st.i + 1 }
    | some b =>
      if sessionOK b then
        match detectAt df st.i with
        | none => { st with i := st.i + 1 }
        | some s =>
          if ratAbs (s.entry_price - s.stop_loss) ≤ 1 / 10000 then { st with i := st.i + 1 }
          else if 0 < tradeSize st.balance s then
            match scanExitAux s.trade_type s.stop_loss (takeProfit s) (st.i + 1)
                (df.drop (st.i + 1)) with
            | some ex => closeTrade st b s ex
            | none => { st with i := df.length, trade_is_open := true }
          else { st with i := st.i + 1 }
      else { st with i := st.i + 1 }

/-- Fuel-indexed iteration of `step` while the cursor is inside the series. -/
def loop (df : List Bar) : Nat → EngineState → EngineState
  | 0, st => st
  | fuel + 1, st => if st.i < df.length then loop df fuel (step df st) else st

/-- `run_backtest`: initial balance 10000, flat, cursor at the warm-up offset
200, iterated to completion (the fuel `df.length` suffices because the cursor
strictly increases; see the termination theorem). -/
def run_backtest (df : List Bar) : EngineState :=
  loop df df.length { i := 200, balance := 10000, trade_is_open := false, records := [] }

/-- Session membership of the entry timestamp of a completed trade. -/
def recSession (r : TradeRecord) : Bool :=
  decide (480 ≤ r.entry_time % 1440) && decide (r.entry_time % 1440 ≤ 1320)

/-- Price coherence of a completed trade: the take-profit is derived from the
entry and stop with reward multiple 2, and the exit price is the take-profit
on a win and the stop on a loss. -/
def recOK4 (r : TradeRecord) : Bool :=
  decide (r.take_profit =
    (if r.trade_type = TradeType.buy then
      r.entry_price + 2 * |r.entry_price - r.stop_loss|
    else
      r.entry_price - 2 * |r.entry_price - r.stop_loss|)) &&
  decide (r.exit_price =
    (if r.result = TradeResult.win then r.take_profit else r.stop_loss))

/-- Balance continuity along the ledger: the balance of each record is the
previous balance plus its own P&L, threading the accumulator. -/
def chainOK (prev : ℚ) : List TradeRecord → Bool
  | [] => true
  | r :: rs => decide (r.account_balance = prev + r.pnl_currency) && chainOK r.account_balance rs

/-- Per-record risk arithmetic relative to the pre-trade balance `prev`:
a loss costs exactly 1 percent, a win pays exactly 2 percent, and the
post-trade balance stays positive. -/
def pnlStepOK (prev : ℚ) (r : TradeRecord) : Bool :=
  decide (|r.pnl_currency| = if r.result = TradeResult.loss then prev / 100 else prev / 50) &&
  decide (0 < r.account_balance)

def pnlOK (prev : ℚ) : List TradeRecord → Bool
  | [] => true
  | r :: rs => pnlStepOK prev r && pnlOK r.account_balance rs

/-- The balance after the last record of the ledger (`init` when empty). -/
def lastBalance (init : ℚ) : List TradeRecord → ℚ
  | [] => init
  | r :: rs => lastBalance r.account_balance rs

/-- Adjacent ledger records never share the boundary bar: the entry timestamp
of the next record differs from the exit timestamp of the previous record. -/
def noSameBarReentry : List TradeRecord → Bool
  | [] => true
  | [_] => true
  | r :: r' :: rs => decide (r'.entry_time ≠ r.exit_time) && noSameBarReentry (r' :: rs)

/-- The stop-loss condition of the exit scan at one future bar. -/
def stopHit (ty : TradeType) (sl : ℚ) (b : Bar) : Bool :=
  match ty with
  | TradeType.buy => decide (b.low ≤ sl)
  | TradeType.sell => decide (sl ≤ b.high)

/-- The take-profit condition of the exit scan at one future bar. -/
def tpHit (ty : TradeType) (tp : ℚ) (b : Bar) : Bool :=
  match ty with
  | TradeType.buy => decide (tp ≤ b.high)
  | TradeType.sell => decide (b.low ≤ tp)

theorem ratAbs_eq_abs (x : ℚ) : ratAbs x = |x| := by
  unfold ratAbs
  split
  · exact (abs_of_neg (by assumption)).symm
  · exact (abs_of_nonneg (by linarith [not_lt.mp (by assumption)])).symm

theorem getLast?_mem {α : Type} : ∀ {l : List α} {a : α}, l.getLast? = some a → a ∈ l
  | [], _, h => by simp [List.getLast?] at h
  | [x], a, h => by
      simp [List.getLast?] at h
      simp [h]
  | _ :: y :: l, a, h => by
      rw [List.getLast?_cons_cons] at h
      exact List.mem_cons_of_mem _ (getLast?_mem h)

theorem lastBalance_cons (init : ℚ) (r : TradeRecord) (rs : List TradeRecord) :
    lastBalance init (r :: rs) = lastBalance r.account_balance rs := rfl

theorem lastBalance_append (init : ℚ) (rs : List TradeRecord) (r : TradeRecord) :
    lastBalance init (rs ++ [r]) = r.account_balance := by
  induction rs generalizing init with
  | nil => rfl
  | cons x xs ih => simpa [lastBalance] using ih x.account_balance

theorem chainOK_append (init : ℚ) (rs : List TradeRecord) (r : TradeRecord) :
    chainOK init (rs ++ [r]) =
      (chainOK init rs && decide (r.account_balance = lastBalance init rs + r.pnl_currency)) := by
  induction rs generalizing init with
  | nil => simp [chainOK, lastBalance]
  | cons x xs ih => simp [chainOK, ih, lastBalance_cons, Bool.and_assoc]

theorem pnlOK_append (init : ℚ) (rs : List TradeRecord) (r : TradeRecord) :
    pnlOK init (rs ++ [r]) = (pnlOK init rs && pnlStepOK (lastBalance init rs) r) := by
  induction rs generalizing init with
  | nil => simp [pnlOK, lastBalance]
  | cons x xs ih => simp [pnlOK, ih, lastBalance_cons, Bool.and_assoc]

theorem scanExitAux_ge (ty : TradeType) (sl tp : ℚ) (bars : List Bar) :
    ∀ (j0 : Nat) (ex : ExitEv), scanExitAux ty sl tp j0 bars = some ex → j0 ≤ ex.j := by
  induction bars with
  | nil => intro j0 ex h; cases ty <;> simp [scanExitAux] at h
  | cons b rest ih =>
    intro j0 ex h
    cases ty <;> simp only [scanExitAux] at h
    all_goals
      split at h
      · injection h with h
        subst h
        exact Nat.le_refl _
      · split at h
        · injection h with h
          subst h
          exact Nat.le_refl _
        · exact Nat.le_of_succ_le (ih (j0 + 1) ex h)

theorem scanExitAux_shape (ty : TradeType) (sl tp : ℚ) (bars : List Bar) :
    ∀ (j0 : Nat) (ex : ExitEv), scanExitAux ty sl tp j0 bars = some ex →
      (ex.result = TradeResult.loss ∧ ex.exit_price = sl) ∨
      (ex.result = TradeResult.win ∧ ex.exit_price = tp) := by
  induction bars with
  | nil => intro j0 ex h; cases ty <;> simp [scanExitAux] at h
  | cons b rest ih =>
    intro j0 ex h
    cases ty <;> simp only [scanExitAux] at h
    all_goals
      split at h
      · injection h with h
        subst h
        exact Or.inl ⟨rfl, rfl⟩
      · split at h
        · injection h with h
          subst h
          exact Or.inr ⟨rfl, rfl⟩
        · exact ih (j0 + 1) ex h

theorem scanExitAux_stop_first (ty : TradeType) (sl tp : ℚ) (bars : List Bar) :
    ∀ (j0 : Nat) (ex : ExitEv), scanExitAux ty sl tp j0 bars = some ex →
      stopHit ty sl ex.bar = true →
      ex.result = TradeResult.loss ∧ ex.exit_price = sl := by
  induction bars with
  | nil => intro j0 ex h; cases ty <;> simp [scanExitAux] at h
  | cons b rest ih =>
    intro j0 ex h
    cases ty <;> simp only [scanExitAux] at h
    case buy =>
      split at h
      · injection h with h
        subst h
        exact fun _ => ⟨rfl, rfl⟩
      · split at h
        · injection h with h
          subst h
          intro hstop
          simp only [stopHit, decide_eq_true_eq] at hstop
          exact absurd hstop (by assumption)
        · exact ih (j0 + 1) ex h
    case sell =>
      split at h
      · injection h with h
        subst h
        exact fun _ => ⟨rfl, rfl⟩
      · split at h
        · injection h with h
          subst h
          intro hstop
          simp only [stopHit, decide_eq_true_eq] at hstop
          exact absurd hstop (by assumption)
        · exact ih (j0 + 1) ex h

theorem scanExitAux_fires_first (ty : TradeType) (sl tp : ℚ) (j0 : Nat) (b : Bar)
    (rest : List Bar) (h : stopHit ty sl b = true) :
    scanExitAux ty sl tp j0 (b :: rest) = some ⟨j0, b, TradeResult.loss, sl⟩ := by
  cases ty <;> simp only [stopHit, decide_eq_true_eq] at h <;>
    simp only [scanExitAux] <;> rw [if_pos h]

theorem detect_consulted (df : List Bar) (i : Nat) (s : Setup)
    (h : detectAt df i = some s) : s.lhIdx < i ∧ s.stopIdx < i := by
  unfold detectAt at h
  split at h
  · exact absurd h (by simp)
  next b hb =>
    split at h
    · split at h
      · exact absurd h (by simp)
      next lh hlh =>
        split at h
        · split at h
          · exact absurd h (by simp)
          next rl hrl =>
            injection h with h
            subst h
            refine ⟨?_, ?_⟩
            · have hm := getLast?_mem hlh
              have hm2 := (List.mem_filter.mp hm).1
              exact of_decide_eq_true (List.mem_filter.mp hm2).2
            · have hm := getLast?_mem hrl
              exact of_decide_eq_true (List.mem_filter.mp hm).2
        · exact absurd h (by simp)
    · split at h
      · exact absurd h (by simp)
      next hl hhl =>
        split at h
        · split at h
          · exact absurd h (by simp)
          next rh hrh =>
            injection h with h
            subst h
            refine ⟨?_, ?_⟩
            · have hm := getLast?_mem hhl
              have hm2 := (List.mem_filter.mp hm).1
              exact of_decide_eq_true (List.mem_filter.mp hm2).2
            · have hm := getLast?_mem hrh
              exact of_decide_eq_true (List.mem_filter.mp hm).2
        · exact absurd h (by simp)

/-- The engine invariant carried through the loop: the ledger satisfies the
balance chain, the risk arithmetic, the per-record price coherence and the
session containment; the running balance equals the last ledger balance and
stays positive. -/
def EngineInv (bal : ℚ) (rs : List TradeRecord) : Prop :=
  chainOK 10000 rs = true ∧ pnlOK 10000 rs = true ∧
  rs.all recOK4 = true ∧ rs.all recSession = true ∧
  bal = lastBalance 10000 rs ∧ 0 < bal

theorem tradeSize_pos_eq (bal : ℚ) (s : Setup) (hb : 0 < bal)
    (hd : ¬ ratAbs (s.entry_price - s.stop_loss) ≤ 1 / 10000) :
    |s.entry_price - s.stop_loss| * tradeSize bal s = bal / 100 ∧ 0 < tradeSize bal s := by
  rw [ratAbs_eq_abs] at hd
  have hlt : (1:ℚ) / 10000 < |s.entry_price - s.stop_loss| := not_le.mp hd
  have hd0 : (0:ℚ) < |s.entry_price - s.stop_loss| := lt_trans (by norm_num) hlt
  have hne : |s.entry_price - s.stop_loss| ≠ 0 := ne_of_gt hd0
  have hsz : tradeSize bal s = bal * (1 / 100) / |s.entry_price - s.stop_loss| := by
    unfold tradeSize get_position_size
    rw [ratAbs_eq_abs, if_neg hne]
  constructor
  · rw [hsz]
    field_simp
    ring
  · rw [hsz]
    exact div_pos (mul_pos hb (by norm_num)) hd0

theorem tradePnl_spec (bal : ℚ) (s : Setup) (ex : ExitEv) (hb : 0 < bal)
    (hd : ¬ ratAbs (s.entry_price - s.stop_loss) ≤ 1 / 10000)
    (hex : (ex.result = TradeResult.loss ∧ ex.exit_price = s.stop_loss) ∨
      (ex.result = TradeResult.win ∧ ex.exit_price = takeProfit s)) :
    |tradePnl bal s ex| = (if ex.result = TradeResult.loss then bal / 100 else bal / 50) ∧
    0 < bal + tradePnl bal s ex := by
  obtain ⟨hkey, hpos⟩ := tradeSize_pos_eq bal s hb hd
  rcases hex with ⟨hres, hexit⟩ | ⟨hres, hexit⟩
  · have habs : |tradePnl bal s ex| = bal / 100 := by
      unfold tradePnl
      split
      · rw [hexit, abs_mul, abs_of_pos hpos, abs_sub_comm, hkey]
      · rw [hexit, abs_mul, abs_of_pos hpos, hkey]
    refine ⟨by rw [habs, hres, if_pos rfl], ?_⟩
    have hge := neg_abs_le (tradePnl bal s ex)
    rw [habs] at hge
    linarith
  · have hval : tradePnl bal s ex = bal / 50 := by
      unfold tradePnl
      split
      next hty =>
        rw [hexit]
        unfold takeProfit
        rw [if_pos hty, ratAbs_eq_abs]
        calc (s.entry_price + |s.entry_price - s.stop_loss| * 2 - s.entry_price) *
              tradeSize bal s
            = 2 * (|s.entry_price - s.stop_loss| * tradeSize bal s) := by ring
          _ = 2 * (bal / 100) := by rw [hkey]
          _ = bal / 50 := by ring
      next hty =>
        rw [hexit]
        unfold takeProfit
        rw [if_neg hty, ratAbs_eq_abs]
        calc (s.entry_price - (s.entry_price - |s.entry_price - s.stop_loss| * 2)) *
              tradeSize bal s
            = 2 * (|s.entry_price - s.stop_loss| * tradeSize bal s) := by ring
          _ = 2 * (bal / 100) := by rw [hkey]
          _ = bal / 50 := by ring
    have hresne : ¬ ex.result = TradeResult.loss := by rw [hres]; simp
    refine ⟨by rw [hval, if_neg hresne, abs_of_pos (by positivity)], by rw [hval]; linarith⟩

theorem closeTrade_inv (st : EngineState) (b : Bar) (s : Setup) (ex : ExitEv)
    (h : EngineInv st.balance st.records) (hs : sessionOK b = true)
    (hd : ¬ ratAbs (s.entry_price - s.stop_loss) ≤ 1 / 10000)
    (hex : (ex.result = TradeResult.loss ∧ ex.exit_price = s.stop_loss) ∨
      (ex.result = TradeResult.win ∧ ex.exit_price = takeProfit s)) :
    EngineInv (closeTrade st b s ex).balance (closeTrade st b s ex).records := by
  obtain ⟨h1, h2, h3, h4, h5, h6⟩ := h
  obtain ⟨hpa, hpb⟩ := tradePnl_spec st.balance s ex h6 hd hex
  unfold closeTrade
  dsimp only
  refine ⟨?_, ?_, ?_, ?_, ?_, ?_⟩
  · rw [chainOK_append, h1, Bool.true_and, decide_eq_true_eq, ← h5]
    simp [mkRecord]
  · rw [pnlOK_append, h2, Bool.true_and, ← h5]
    unfold pnlStepOK
    rw [Bool.and_eq_true, decide_eq_true_eq, decide_eq_true_eq]
    constructor
    · simpa [mkRecord] using hpa
    · simpa [mkRecord] using hpb
  · rw [List.all_append, h3, Bool.true_and]
    simp only [List.all_cons, List.all_nil, Bool.and_true]
    unfold recOK4
    rw [Bool.and_eq_true, decide_eq_true_eq, decide_eq_true_eq]
    constructor
    · simp only [mkRecord]
      unfold takeProfit
      rw [ratAbs_eq_abs]
      split <;> ring
    · simp only [mkRecord]
      rcases hex with ⟨hres, hexit⟩ | ⟨hres, hexit⟩
      · rw [hres, hexit, if_neg (by simp)]
      · rw [hres, hexit, if_pos rfl]
  · rw [List.all_append, h4, Bool.true_and]
    simp only [List.all_cons, List.all_nil, Bool.and_true]
    unfold recSession
    unfold sessionOK at hs
    simpa [mkRecord] using hs
  · rw [lastBalance_append]
    simp [mkRecord]
  · exact hpb

theorem step_inv (df : List Bar) (st : EngineState)
    (h : EngineInv st.balance st.records) :
    EngineInv (step df st).balance (step df st).records := by
  unfold step
  split
  · exact h
  · split
    · exact h
    next b hb =>
      split
      next hsess =>
        split
        · exact h
        next s hdet =>
          split
          · exact h
          next hd =>
            split
            next hsize =>
              split
              next ex hscan =>
                exact closeTrade_inv st b s ex h hsess hd
                  (scanExitAux_shape s.trade_type s.stop_loss (takeProfit s)
                    (df.drop (st.i + 1)) (st.i + 1) ex hscan)
              next => exact h
            next => exact h
      next => exact h

theorem loop_inv (df : List Bar) :
    ∀ (fuel : Nat) (st : EngineState), EngineInv st.balance st.records →
      EngineInv (loop df fuel st).balance (loop df fuel st).records
  | 0, st, h => h
  | fuel + 1, st, h => by
    unfold loop
    split
    · exact loop_inv df fuel (step df st) (step_inv df st h)
    · exact h

theorem run_inv (df : List Bar) :
    EngineInv (run_backtest df).balance (run_backtest df).records := by
  unfold run_backtest
  exact loop_inv df df.length _ ⟨rfl, rfl, rfl, rfl, rfl, by norm_num⟩

theorem step_i_gt (df : List Bar) (st : EngineState) (hlt : st.i < df.length) :
    st.i < (step df st).i := by
  unfold step
  split
  · exact Nat.lt_succ_self _
  · split
    · exact Nat.lt_succ_self _
    next b hb =>
      split
      · split
        · exact Nat.lt_succ_self _
        next s hdet =>
          split
          · exact Nat.lt_succ_self _
          · split
            · split
              next ex hscan =>
                have := scanExitAux_ge s.trade_type s.stop_loss (takeProfit s)
                  (df.drop (st.i + 1)) (st.i + 1) ex hscan
                unfold closeTrade
                exact lt_of_lt_of_le (Nat.lt_succ_self _) this
              next => exact hlt
            · exact Nat.lt_succ_self _
      · exact Nat.lt_succ_self _

theorem loop_reaches (df : List Bar) :
    ∀ (fuel : Nat) (st : EngineState), df.length ≤ st.i + fuel →
      df.length ≤ (loop df fuel st).i
  | 0, st, h => by simpa using h
  | fuel + 1, st, h => by
    unfold loop
    split
    next hlt =>
      exact loop_reaches df fuel (step df st) (by
        have := step_i_gt df st hlt
        omega)
    next hge => omega

theorem run_reaches (df : List Bar) : df.length ≤ (run_backtest df).i := by
  unfold run_backtest
  exact loop_reaches df df.length _ (by omega)

theorem step_session_reject (df : List Bar) (st : EngineState) (b : Bar)
    (hb : df.get? st.i = some b) (hs : sessionOK b = false) :
    step df st = { st with i := st.i + 1 } := by
  unfold step
  split
  · rfl
  · rw [hb]
    simp [hs]

theorem step_exit_resumes_at_exit_bar (df : List Bar) (st : EngineState) (b : Bar)
    (s : Setup) (ex : ExitEv)
    (hopen : st.trade_is_open = false)
    (hb : df.get? st.i = some b)
    (hs : sessionOK b = true)
    (hdet : detectAt df st.i = some s)
    (hd : ¬ ratAbs (s.entry_price - s.stop_loss) ≤ 1 / 10000)
    (hsz : 0 < tradeSize st.balance s)
    (hscan : scanExitAux s.trade_type s.stop_loss (takeProfit s) (st.i + 1)
      (df.drop (st.i + 1)) = some ex) :
    (step df st).i = ex.j ∧ (step df st).trade_is_open = false ∧
    (step df st).records = st.records ++ [mkRecord st.balance b s ex] := by
  unfold step
  rw [hopen, hb]
  simp only [Bool.false_eq_true, if_false]
  simp only [hs, eq_self_iff_true, if_true, hdet]
  simp only [if_neg hd, if_pos hsz, hscan]
  simp [closeTrade]

theorem step_no_exit_drops_position (df : List Bar) (st : EngineState) (b : Bar)
    (s : Setup)
    (hopen : st.trade_is_open = false)
    (hb : df.get? st.i = some b)
    (hs : sessionOK b = true)
    (hdet : detectAt df st.i = some s)
    (hd : ¬ ratAbs (s.entry_price - s.stop_loss) ≤ 1 / 10000)
    (hsz : 0 < tradeSize st.balance s)
    (hscan : scanExitAux s.trade_type s.stop_loss (takeProfit s) (st.i + 1)
      (df.drop (st.i + 1)) = none) :
    (step df st).i = df.length ∧ (step df st).trade_is_open = true ∧
    (step df st).records = st.records ∧ (step df st).balance = st.balance := by
  unfold step
  rw [hopen, hb]
  simp only [Bool.false_eq_true, if_false]
  simp only [hs, eq_self_iff_true, if_true, hdet]
  simp only [if_neg hd, if_pos hsz, hscan]
  simp

/-- A 207-bar frame exhibiting two back-to-back trades: a lower-high swing at
index 10 and a swing low at index 11, a bullish breakout at the warm-up cursor
200 whose stop is hit at bar 205, and a second breakout accepted at bar 205
itself (the exit bar of the first trade) that loses at bar 206. Timestamps are
`600 + i` minutes, inside the session window. -/
def exBar1 (i : Nat) : Bar :=
  if i = 10 then ⟨600 + i, 1, 1, 1, 1, 2, true, false⟩
  else if i = 11 then ⟨600 + i, 1, 1/2, 1, 1, 2, false, true⟩
  else if i = 200 then ⟨600 + i, 2, 1, 2, 2, 1, false, false⟩
  else if i = 205 then ⟨600 + i, 2, 2/5, 2, 2, 1, false, false⟩
  else if i = 206 then ⟨600 + i, 1, 2/5, 1, 1, 2, false, false⟩
  else ⟨600 + i, 1, 1, 1, 1, 2, false, false⟩

def exDf1 : List Bar := (List.range 207).map exBar1

/-- A 202-bar frame where a position opened at cursor 200 finds no exit on the
single remaining bar, so the run ends with the position still open. -/
def exBar9 (i : Nat) : Bar :=
  if i = 10 then ⟨600 + i, 1, 1, 1, 1, 2, true, false⟩
  else if i = 11 then ⟨600 + i, 1, 1/2, 1, 1, 2, false, true⟩
  else if i = 200 then ⟨600 + i, 2, 1, 2, 2, 1, false, false⟩
  else ⟨600 + i, 1, 1, 1, 1, 2, false, false⟩

def exDf9 : List Bar := (List.range 202).map exBar9

/-- Raw 206-bar price frame for the swing-confirmability scenario: a genuine
lower-high at index 150 (EMAs crossed bearish there), a deep low at index 199
whose centered-window swing flag needs bars up to 204, a bullish breakout
close at index 200, and a high at 203 that hits the target. Swing columns are
filled in by `find_swing_points`. -/
def c2RawBar (i : Nat) : Bar :=
  if i = 150 then ⟨600 + i, 6/5, 1, 1, 1, 2, false, false⟩
  else if i = 199 then ⟨600 + i, 1, 9/10, 1, 2, 1, false, false⟩
  else if i = 200 then ⟨600 + i, 3/2, 1, 3/2, 2, 1, false, false⟩
  else if i = 203 then ⟨600 + i, 3, 1, 1, 2, 1, false, false⟩
  else ⟨600 + i, 1, 1, 1, 2, 1, false, false⟩

def c2Df : List Bar := find_swing_points ((List.range 206).map c2RawBar)

/-- The setup detected on `c2Df` at cursor 200: its stop comes from the swing
flagged at index 199, confirmable only from index 204 on. -/
def c2Setup : Setup :=
  ⟨TradeType.buy, 3/2, 9/10, SetupType.bullishMSS, 6/5, 150, 199⟩

/-- A minimal 4-bar frame for witnesses of the step-level theorems: lower-high
swing at index 0, swing low at index 1, bullish breakout at index 2, stop hit
at index 3. -/
def miniDf : List Bar :=
  [⟨600, 1, 1, 1, 1, 2, true, false⟩,
   ⟨601, 1, 1/2, 1, 1, 2, false, true⟩,
   ⟨602, 2, 1, 2, 2, 1, false, false⟩,
   ⟨603, 1, 2/5, 1, 1, 2, false, false⟩]

def miniState : EngineState := ⟨2, 10000, false, []⟩

def miniBar : Bar := ⟨602, 2, 1, 2, 2, 1, false, false⟩

def miniSetup : Setup := ⟨TradeType.buy, 2, 1/2, SetupType.bullishMSS, 1, 0, 1⟩

def miniExit : ExitEv := ⟨3, ⟨603, 1, 2/5, 1, 1, 2, false, false⟩, TradeResult.loss, 1/2⟩

/-- The first three bars of `miniDf`: the same setup triggers at cursor 2 but
there is no later bar, so the exit scan finds nothing. -/
def miniDf9 : List Bar := miniDf.take 3

/-- A bar outside the session window (time-of-day 01:40). -/
def outBar : Bar := ⟨100, 1, 1, 1, 1, 2, false, false⟩

def outDf : List Bar := [outBar]

def outState : EngineState := ⟨0, 10000, false, []⟩

/-- A future bar satisfying both the stop-loss and the take-profit condition
of a long with stop 1/2 and target 5. -/
def bothBar : Bar := ⟨700, 10, 0, 1, 1, 1, false, false⟩

def bothExit : ExitEv := ⟨7, bothBar, TradeResult.loss, 1/2⟩

/-- **C1** counterexample: on `exDf1` the first trade exits at the bar with
timestamp 805, and a second trade is accepted whose entry bar is that same
exit bar — so the sequence of records violates the no-same-bar-reentry
property, refuting the claim that the second setup is rejected and that the
scan resumes strictly after the exit index. -/
theorem C1_counterexample :
    noSameBarReentry (run_backtest exDf1).records = false ∧
    (run_backtest exDf1).records.map (fun r => (r.entry_time, r.exit_time)) =
      [(800, 805), (805, 806)] :=
  ⟨by decide, by decide⟩

/-- **C1** (amended): when the exit of an accepted setup resolves at bar index
`j`, the engine sets the cursor to `j` itself and returns to flat, so the next
signal-detection scan starts at the exit bar (not strictly after it) and a
second setup whose entry bar equals the exit bar can be accepted. -/
theorem C1_amended_rescan_at_exit_bar (df : List Bar) (st : EngineState) (b : Bar)
    (s : Setup) (ex : ExitEv)
    (hopen : st.trade_is_open = false)
    (hb : df.get? st.i = some b)
    (hs : sessionOK b = true)
    (hdet : detectAt df st.i = some s)
    (hd : ¬ ratAbs (s.entry_price - s.stop_loss) ≤ 1 / 10000)
    (hsz : 0 < tradeSize st.balance s)
    (hscan : scanExitAux s.trade_type s.stop_loss (takeProfit s) (st.i + 1)
      (df.drop (st.i + 1)) = some ex) :
    (step df st).i = ex.j ∧ (step df st).trade_is_open = false ∧
    (step df st).records = st.records ++ [mkRecord st.balance b s ex] :=
  step_exit_resumes_at_exit_bar df st b s ex hopen hb hs hdet hd hsz hscan

/-- **C1** witness: the amended theorem applied to the concrete 4-bar frame
`miniDf` at cursor 2, whose trade exits at bar 3. -/
theorem C1_amended_rescan_at_exit_bar_witness :
    (step miniDf miniState).i = miniExit.j ∧
    (step miniDf miniState).trade_is_open = false ∧
    (step miniDf miniState).records =
      miniState.records ++ [mkRecord miniState.balance miniBar miniSetup miniExit] :=
  C1_amended_rescan_at_exit_bar miniDf miniState miniBar miniSetup miniExit
    (by decide) (by decide) (by decide) (by decide) (by decide) (by decide) (by decide)

/-- **C2** counterexample: on `c2Df` (swing columns computed by
`find_swing_points` with lookback 5) the setup evaluated at cursor 200 takes
its stop from the swing flagged at index 199, which is confirmable only from
index 204 on (`199 + 5 > 200`), and the run emits a trade using that stop —
refuting the claim that a swing flagged at `k` is never used unless the
cursor is at least `k + L`. -/
theorem C2_counterexample :
    detectAt c2Df 200 = some c2Setup ∧
    (c2Df.get? 199).map Bar.swing_low = some true ∧
    ¬ (199 + 5 ≤ 200) ∧
    (run_backtest c2Df).records.map (fun r => (r.stop_loss, r.entry_time)) =
      [(9/10, 800)] :=
  ⟨by decide, by decide, by decide, by decide⟩

/-- **C2** (amended): the signal logic constrains the swing points it consults
only by `index < cursor`; confirmability is not enforced, so all that holds is
that the indices of the broken swing and of the stop swing are strictly below
the cursor. -/
theorem C2_amended_swings_only_past_cursor (df : List Bar) (i : Nat) (s : Setup)
    (h : detectAt df i = some s) : s.lhIdx < i ∧ s.stopIdx < i :=
  detect_consulted df i s h

/-- **C2** witness: the amended theorem applied to `miniDf` at cursor 2. -/
theorem C2_amended_swings_only_past_cursor_witness :
    detectAt miniDf 2 = some miniSetup ∧ (miniSetup.lhIdx < 2 ∧ miniSetup.stopIdx < 2) :=
  ⟨by decide, C2_amended_swings_only_past_cursor miniDf 2 miniSetup (by decide)⟩

/-- **C3**: in the forward exit scan the stop-loss test precedes the
take-profit test on every bar: (1) whenever the scan resolves at a bar whose
stop-loss and take-profit conditions both hold, the result is a loss at the
stop price; (2) a bar satisfying the stop-loss condition resolves the scan
immediately as a loss at the stop price. -/
theorem C3_stop_loss_checked_first :
    (∀ (ty : TradeType) (sl tp : ℚ) (bars : List Bar) (j0 : Nat) (ex : ExitEv),
      scanExitAux ty sl tp j0 bars = some ex →
      stopHit ty sl ex.bar = true → tpHit ty tp ex.bar = true →
      ex.result = TradeResult.loss ∧ ex.exit_price = sl) ∧
    (∀ (ty : TradeType) (sl tp : ℚ) (j0 : Nat) (b : Bar) (rest : List Bar),
      stopHit ty sl b = true →
      scanExitAux ty sl tp j0 (b :: rest) = some ⟨j0, b, TradeResult.loss, sl⟩) :=
  ⟨fun ty sl tp bars j0 ex h hstop _ =>
    scanExitAux_stop_first ty sl tp bars j0 ex h hstop,
   fun ty sl tp j0 b rest h => scanExitAux_fires_first ty sl tp j0 b rest h⟩

/-- **C3** witness: `bothBar` satisfies both conditions of a long with stop
1/2 and target 5, and the scan resolves it as a loss at the stop. -/
theorem C3_stop_loss_checked_first_witness :
    scanExitAux TradeType.buy (1/2) 5 7 [bothBar] = some bothExit ∧
    (bothExit.result = TradeResult.loss ∧ bothExit.exit_price = 1/2) :=
  ⟨by decide,
   C3_stop_loss_checked_first.1 TradeType.buy (1/2) 5 [bothBar] 7 bothExit
     (by decide) (by decide) (by decide)⟩

/-- **C4**: every emitted record has `exit_price = take_profit` on a win and
`exit_price = stop_loss` on a loss, and its take-profit equals
`entry ± 2 × |entry - stop|` per direction (reward multiple 2). -/
theorem C4_exit_and_target_prices (df : List Bar) :
    (run_backtest df).records.all recOK4 = true :=
  (run_inv df).2.2.1

/-- **C5**: along every emitted ledger, each account balance equals the
previous balance plus the pnl of the record, starting from the initial
balance 10000. -/
theorem C5_balance_continuity (df : List Bar) :
    chainOK 10000 (run_backtest df).records = true :=
  (run_inv df).1

/-- **C6**: every emitted record has its entry time-of-day inside the session
window [08:00, 22:00] (both ends inclusive), and a cursor bar outside the
window only advances the cursor, producing no setup. -/
theorem C6_session_containment :
    (∀ df : List Bar, (run_backtest df).records.all recSession = true) ∧
    (∀ (df : List Bar) (st : EngineState) (b : Bar),
      df.get? st.i = some b → sessionOK b = false →
      step df st = { st with i := st.i + 1 }) :=
  ⟨fun df => (run_inv df).2.2.2.1,
   fun df st b hb hs => step_session_reject df st b hb hs⟩

/-- **C6** witness: the hard session gate applied to a concrete out-of-session
bar (time-of-day 01:40). -/
theorem C6_session_containment_witness :
    outDf.get? outState.i = some outBar ∧ sessionOK outBar = false ∧
    step outDf outState = { outState with i := outState.i + 1 } :=
  ⟨by decide, by decide,
   C6_session_containment.2 outDf outState outBar (by decide) (by decide)⟩

/-- **C7**: the position sizer returns 0 when the stop distance is zero and
`balance × riskPercent / 100 / |entry - stop|` otherwise. -/
theorem C7_position_sizer (balance risk_percent entry_price sl_price : ℚ) :
    get_position_size balance risk_percent entry_price sl_price =
      if |entry_price - sl_price| = 0 then 0
      else balance * (risk_percent / 100) / |entry_price - sl_price| := by
  unfold get_position_size
  rw [ratAbs_eq_abs]

/-- **C8**: the cursor strictly increases on every loop iteration taken inside
the series, and consequently the run ends with the cursor at or beyond the
series length. -/
theorem C8_cursor_strictly_increases :
    (∀ (df : List Bar) (st : EngineState), st.i < df.length → st.i < (step df st).i) ∧
    (∀ df : List Bar, df.length ≤ (run_backtest df).i) :=
  ⟨fun df st h => step_i_gt df st h, fun df => run_reaches df⟩

/-- **C8** witness: strict cursor increase at a concrete state of `miniDf`. -/
theorem C8_cursor_strictly_increases_witness :
    miniState.i < miniDf.length ∧ miniState.i < (step miniDf miniState).i :=
  ⟨by decide, C8_cursor_strictly_increases.1 miniDf miniState (by decide)⟩

/-- **C9** counterexample: on `exDf9` a position is opened and never exits;
the run ends flagged in-position with an empty ledger and the initial
balance — the open position is silently dropped (the ledger, the only output
handed to the caller, shows no trace of it), refuting the claim that it is
surfaced to the caller as unresolved. -/
theorem C9_counterexample :
    (run_backtest exDf9).trade_is_open = true ∧
    (run_backtest exDf9).records = [] ∧
    (run_backtest exDf9).balance = 10000 :=
  ⟨by decide, by decide, by decide⟩

/-- **C9** (amended): when no exit condition fires on any remaining bar, the
simulation ends with the position open: no record is appended, the balance is
untouched, the cursor jumps to the series end — and nothing about the open
position is emitted to the ledger, so it is silently dropped rather than
surfaced. -/
theorem C9_amended_open_position_silently_dropped (df : List Bar)
    (st : EngineState) (b : Bar) (s : Setup)
    (hopen : st.trade_is_open = false)
    (hb : df.get? st.i = some b)
    (hs : sessionOK b = true)
    (hdet : detectAt df st.i = some s)
    (hd : ¬ ratAbs (s.entry_price - s.stop_loss) ≤ 1 / 10000)
    (hsz : 0 < tradeSize st.balance s)
    (hscan : scanExitAux s.trade_type s.stop_loss (takeProfit s) (st.i + 1)
      (df.drop (st.i + 1)) = none) :
    (step df st).i = df.length ∧ (step df st).trade_is_open = true ∧
    (step df st).records = st.records ∧ (step df st).balance = st.balance :=
  step_no_exit_drops_position df st b s hopen hb hs hdet hd hsz hscan

/-- **C9** witness: the amended theorem applied to the 3-bar frame `miniDf9`
where the setup at cursor 2 has no future bar to exit on. -/
theorem C9_amended_open_position_silently_dropped_witness :
    (step miniDf9 miniState).i = miniDf9.length ∧
    (step miniDf9 miniState).trade_is_open = true ∧
    (step miniDf9 miniState).records = miniState.records ∧
    (step miniDf9 miniState).balance = miniState.balance :=
  C9_amended_open_position_silently_dropped miniDf9 miniState miniBar miniSetup
    (by decide) (by decide) (by decide) (by decide) (by decide) (by decide) (by decide)

/-- **C10**: along every emitted ledger, the absolute pnl of each record is
exactly 1 percent of the pre-trade balance on a loss and exactly 2 percent on
a win, and every post-trade balance stays strictly positive, starting from
the initial balance 10000. -/
theorem C10_fixed_fractional_risk (df : List Bar) :
    pnlOK 10000 (run_backtest df).records = true :=
  (run_inv df).2.1
